import Mathlib

/-!
Shallow embedding of the EDEN Boost repository core: the mask-canvas engine
(`src/components/InpaintingCanvas.tsx`), the generation pipeline with retry
logic (`src/services/geminiService.ts`, the variant at lines 492-613), and the
bounded result history (`src/App.tsx`), together with proofs of the specified
properties.
-/

namespace EdenBoost

/-- An RGBA pixel as produced by `getImageData` (one byte per channel). -/
structure RGBA where
  r : Nat
  g : Nat
  b : Nat
  a : Nat
  deriving DecidableEq

/-- `drawImage` source-over compositing of a (non-premultiplied) canvas pixel
onto the opaque black background that `exportMask` paints first
(InpaintingCanvas.tsx lines 60-65): each color channel is scaled by the
pixel's alpha; floor division models the byte quantisation. -/
def compositeOverBlack (p : RGBA) : RGBA :=
  ⟨p.r * p.a / 255, p.g * p.a / 255, p.b * p.a / 255, 255⟩

/-- The fixed threshold of the export rule, `data[i] > 20`
(InpaintingCanvas.tsx line 70). -/
def maskThreshold : Nat := 20

/-- The per-pixel rule of the `exportMask` loop (InpaintingCanvas.tsx lines
69-75): only the red channel is tested against the threshold, and only the
matching pixels are rewritten to white; all others are left unchanged. -/
def thresholdPixel (p : RGBA) : RGBA :=
  if maskThreshold < p.r then ⟨255, 255, 255, p.a⟩ else p

/-- `exportMask` (InpaintingCanvas.tsx lines 50-82) acting on the raster's
pixel sequence: composite the canvas over the black-filled offscreen buffer,
then apply the threshold rule to every pixel. -/
def exportMask (raster : List RGBA) : List RGBA :=
  raster.map fun p => thresholdPixel (compositeOverBlack p)

def pureWhite : RGBA := ⟨255, 255, 255, 255⟩

def pureBlack : RGBA := ⟨0, 0, 0, 255⟩

/-- A raster pixel painted once with the brush color `rgba(6, 182, 212, 0.7)`
(InpaintingCanvas.tsx line 140): alpha 0.7 is stored as the byte 178. -/
def brushPixel : RGBA := ⟨6, 182, 212, 178⟩

/-- The state of the inpainting canvas: the live raster, the snapshot list
`historyRef.current`, and the cursor `historyStep`
(InpaintingCanvas.tsx lines 19-21). -/
structure CanvasState (α : Type) where
  raster : α
  history : List α
  step : Nat

/-- Initial state (InpaintingCanvas.tsx lines 38-44): blank raster,
history holding the blank snapshot, cursor 0. -/
def initCanvas {α : Type} (blank : α) : CanvasState α := ⟨blank, [blank], 0⟩

/-- `saveHistoryState` (InpaintingCanvas.tsx lines 84-99): truncate the
forward (redo) branch at the cursor, append a snapshot of the current raster,
and move the cursor to the new tip. -/
def saveHistoryState {α : Type} (s : CanvasState α) : CanvasState α :=
  let newHistory := s.history.take (s.step + 1) ++ [s.raster]
  { s with history := newHistory, step := newHistory.length - 1 }

/-- A pointer gesture mutates the live raster in place (`draw`,
InpaintingCanvas.tsx lines 113-147); the history is untouched until the
stroke completes and `saveHistoryState` runs. -/
def strokeRaster {α : Type} (f : α → α) (s : CanvasState α) : CanvasState α :=
  { s with raster := f s.raster }

/-- `handleUndo` (InpaintingCanvas.tsx lines 164-175). The snapshot lookup
`historyRef.current[newStep]` is always in range in the reachable states;
`getD` keeps the raster unchanged at an out-of-range index. -/
def handleUndo {α : Type} (s : CanvasState α) : CanvasState α :=
  if 0 < s.step then
    { s with raster := s.history.getD (s.step - 1) s.raster, step := s.step - 1 }
  else s

/-- `handleRedo` (InpaintingCanvas.tsx lines 177-188). -/
def handleRedo {α : Type} (s : CanvasState α) : CanvasState α :=
  if s.step < s.history.length - 1 then
    { s with raster := s.history.getD (s.step + 1) s.raster, step := s.step + 1 }
  else s

/-- `clearCanvas` (InpaintingCanvas.tsx lines 190-197): blank the raster,
then commit through `saveHistoryState`. -/
def clearCanvas {α : Type} (blank : α) (s : CanvasState α) : CanvasState α :=
  saveHistoryState { s with raster := blank }

/-- The on-screen bounding box returned by `getBoundingClientRect`
(InpaintingCanvas.tsx line 119). -/
structure DisplayBox where
  left : ℚ
  top : ℚ
  width : ℚ
  height : ℚ

/-- The display-to-raster coordinate mapping of `draw` (InpaintingCanvas.tsx
lines 132-133); JavaScript numbers are modelled as exact rationals. -/
def mapToRaster (box : DisplayBox) (rasterW rasterH clientX clientY : ℚ) : ℚ × ℚ :=
  ((clientX - box.left) * (rasterW / box.width),
   (clientY - box.top) * (rasterH / box.height))

/-- The inverse of `mapToRaster`, from raster space back to display space:
the round-trip inverse named by the specified property. -/
def mapToScreen (box : DisplayBox) (rasterW rasterH : ℚ) (p : ℚ × ℚ) : ℚ × ℚ :=
  (p.1 * (box.width / rasterW) + box.left,
   p.2 * (box.height / rasterH) + box.top)

/-- First entry of the ratio table of `getBestAspectRatio` (geminiService.ts
line 450); the seedless JavaScript `reduce` uses it as the initial
accumulator. -/
def aspectSeed : String × ℚ := ("1:1", 1)

/-- The remaining ratio table entries (geminiService.ts lines 451-454). The
JavaScript doubles 0.75 and 0.5625 are the exact rationals 3/4 and 9/16; 4:3
and 16:9 are tabulated as the truncated values 1.333 and 1.777. -/
def aspectRest : List (String × ℚ) :=
  [("3:4", 3 / 4), ("4:3", 1333 / 1000), ("9:16", 9 / 16), ("16:9", 1777 / 1000)]

/-- The full ratio table of `getBestAspectRatio` (geminiService.ts lines
449-455). -/
def aspectTargets : List (String × ℚ) := aspectSeed :: aspectRest

/-- One step of the `reduce` in `getBestAspectRatio` (geminiService.ts lines
456-458): keep `prev` unless `curr` is strictly closer to the ratio. -/
def closerTarget (ratio : ℚ) (prev curr : String × ℚ) : String × ℚ :=
  if |curr.2 - ratio| < |prev.2 - ratio| then curr else prev

/-- `getBestAspectRatio` (geminiService.ts lines 446-459). JavaScript numbers
are modelled as exact rationals; a missing (`none`) or zero dimension is falsy
and takes the `"1:1"` default; the seedless `reduce` starts from the first
table entry. -/
def getBestAspectRatio (width height : Option ℚ) : String :=
  match width, height with
  | some w, some h =>
    if w = 0 ∨ h = 0 then "1:1"
    else
      match aspectTargets with
      | [] => "1:1"
      | t :: rest => (rest.foldl (closerTarget (w / h)) t).1
  | _, _ => "1:1"

/-- One image-synthesis attempt as observed by the retry loop (geminiService.ts
lines 554-599): the remote call either yields inline image data, or fails with
an inspectable message (a thrown error's message, a textual refusal, or
"Model returned no image data."). -/
inductive AttemptOutcome where
  | success (data : String)
  | failure (msg : String)

/-- Character-list prefix test, the base of substring containment. -/
def hasPrefixChars : List Char → List Char → Bool
  | [], _ => true
  | _ :: _, [] => false
  | c :: cs, d :: ds => c = d && hasPrefixChars cs ds

/-- Character-list substring test. -/
def hasSubChars (sub : List Char) : List Char → Bool
  | [] => sub.isEmpty
  | c :: rest => hasPrefixChars sub (c :: rest) || hasSubChars sub rest

/-- `s.includes(sub)` on JavaScript strings. -/
def containsSub (s sub : String) : Bool := hasSubChars sub.toList s.toList

/-- `isQuota` (geminiService.ts line 577). -/
def isQuotaMsg (msg : String) : Bool :=
  containsSub msg "429" || containsSub msg "quota" || containsSub msg "RESOURCE_EXHAUSTED"

/-- `isOverloaded` (geminiService.ts line 578). -/
def isOverloadedMsg (msg : String) : Bool :=
  containsSub msg "503" || containsSub msg "Overloaded"

/-- The safety test of the error sanitiser (geminiService.ts line 593). -/
def isSafetyMsg (msg : String) : Bool :=
  containsSub msg "Safety" || containsSub msg "block"

/-- The quota-exhaustion user message (geminiService.ts line 592). -/
def quotaErrorMessage : String :=
  "Daily Quota Exceeded. The free tier for Gemini Image generation is currently exhausted or busy. Please try again later."

/-- The policy-refusal user message (geminiService.ts line 594). -/
def safetyErrorMessage : String :=
  "Safety Block. The model refused the request due to safety guidelines. Try a simpler sketch."

/-- The error sanitiser run when no further attempt will be made
(geminiService.ts lines 590-597). -/
def sanitizeError (msg : String) : String :=
  if isQuotaMsg msg then quotaErrorMessage
  else if isSafetyMsg msg then safetyErrorMessage
  else "Generation Failed: " ++ msg.take 100 ++ "..."

/-- `MAX_RETRIES` (geminiService.ts line 553). -/
def maxRetries : Nat := 3

/-- Observable outcome of the retry loop: the image payload on success, the
sanitised error otherwise, the backoff delays that were awaited, and the
number of attempts issued. -/
structure RetryState where
  imageData : Option String
  error : Option String
  delays : List Nat
  attemptsMade : Nat

/-- The retry loop (geminiService.ts lines 553-600). The oracle gives the
outcome of each numbered attempt; `fuel` counts the remaining iterations of
`for (attempt = 1; attempt <= MAX_RETRIES; attempt++)`. On a retriable
failure below the attempt budget the loop waits `2000 * attempt` ms and
continues; otherwise it stores the sanitised error and exits. -/
def runAttempts (oracle : Nat → AttemptOutcome) : Nat → Nat → RetryState
  | 0, _ => ⟨none, none, [], 0⟩
  | fuel + 1, attempt =>
    match oracle attempt with
    | .success d => ⟨some d, none, [], 1⟩
    | .failure msg =>
      if (isQuotaMsg msg || isOverloadedMsg msg) ∧ attempt < maxRetries then
        let r := runAttempts oracle fuel (attempt + 1)
        ⟨r.imageData, r.error, 2000 * attempt :: r.delays, r.attemptsMade + 1⟩
      else
        ⟨none, some (sanitizeError msg), [], 1⟩

/-- Step 2 of the pipeline: the retry loop entered at attempt 1. -/
def imageGenerationPhase (oracle : Nat → AttemptOutcome) : RetryState :=
  runAttempts oracle maxRetries 1

/-- The fields of `PromptResult` relevant to the pipeline contract (types.ts
lines 45-50, plus the `error` field produced at geminiService.ts lines
606-612); `id` and `timestamp` come from `Date.now()` and are not modelled. -/
structure PromptResultM where
  prompt : String
  imageData : Option String
  error : Option String

/-- Outcome of the text-analysis call (geminiService.ts lines 508-531): either
the response text (`response.text`, with `undefined` modelled as `""`), or the
message of the error thrown inside step 1. -/
inductive TextOutcome where
  | ok (text : String)
  | err (msg : String)

/-- The placeholder substituted for a falsy analysis text
(geminiService.ts line 527). -/
def promptPlaceholder : String := "Prompt generation failed."

/-- `optimizedPrompt = response.text || "Prompt generation failed."`
(geminiService.ts line 527). -/
def refinedPrompt (t : String) : String :=
  if t.isEmpty then promptPlaceholder else t

/-- The message of the error re-thrown on analysis failure
(geminiService.ts line 530). -/
def analysisErrorMessage (msg : String) : String :=
  "Analysis failed: " ++ (if msg.isEmpty then "Unknown error" else msg)

/-- `optimizedPrompt.slice(0, 800)` (geminiService.ts line 545): the first
800 characters of the string. -/
def sliceTo800 (s : String) : String := (s.toList.take 800).asString

/-- The image-generation instruction template (geminiService.ts lines
542-547), with the refined prompt truncated by `slice(0, 800)`. -/
def imageGenPrompt (masterStylePrompt : Option String) (optimizedPrompt : String) : String :=
  "\n        Create a photorealistic architectural rendering.\n        " ++
  (match masterStylePrompt with
   | some s => "STYLE: " ++ s
   | none => "Style: Photorealistic, 8k, Unreal Engine 5.") ++
  "\n        DESCRIPTION: " ++ sliceTo800 optimizedPrompt ++
  "\n        CONSTRAINTS: Use sketch geometry strictly. High fidelity.\n      "

/-- Trace of one `generateArchitecturalPrompt` invocation: the returned value
or thrown error, the number of image-synthesis attempts issued, the backoff
delays, and the image instruction when one was built. -/
structure GenerateTrace where
  result : Except String PromptResultM
  imageAttempts : Nat
  delays : List Nat
  instruction : Option String

/-- `generateArchitecturalPrompt` (geminiService.ts lines 492-613), abstracted
over the remote boundary: a text-analysis outcome, the preparation of the
image parts (`fileToPart` of the sketch, geminiService.ts line 540), and the
per-attempt image-synthesis oracle. A text failure is re-thrown and aborts
the pipeline before any image work; an image-part preparation failure and any
image-synthesis failure degrade to a partial result. -/
def generateArchitecturalPrompt (textOutcome : TextOutcome)
    (setup : Except String Unit) (oracle : Nat → AttemptOutcome)
    (masterStylePrompt : Option String) : GenerateTrace :=
  match textOutcome with
  | .err msg => ⟨.error (analysisErrorMessage msg), 0, [], none⟩
  | .ok t =>
    let optimizedPrompt := refinedPrompt t
    match setup with
    | .error m =>
      ⟨.ok ⟨optimizedPrompt, none, some ("Failed to prepare image data: " ++ m)⟩, 0, [], none⟩
    | .ok _ =>
      let instr := imageGenPrompt masterStylePrompt optimizedPrompt
      let r := imageGenerationPhase oracle
      ⟨.ok ⟨optimizedPrompt, r.imageData, r.error⟩, r.attemptsMade, r.delays, some instr⟩

/-- The history update `setHistory(prev => [x, ...prev].slice(0, 3))` shared
by `handleGenerate` (App.tsx lines 89-92), `handleMasterStyleClick` (App.tsx
lines 128-131) and `handleApplyEdit` (App.tsx line 158). -/
def pushHistory (prev : List PromptResultM) (x : PromptResultM) : List PromptResultM :=
  (x :: prev).take 3

/-! ### Shared helper lemmas -/

theorem take_append_take_of_le {α : Type} :
    ∀ (l m : List α) (j k : Nat), k ≤ j → (l ++ m.take j).take k = (l ++ m).take k
  | [], m, j, k, hkj => by
    simp [List.take_take, Nat.min_eq_left hkj]
  | _ :: _, _, _, 0, _ => rfl
  | a :: l, m, j, k + 1, hkj => by
    simp only [List.cons_append, List.take_succ_cons]
    rw [take_append_take_of_le l m j k (Nat.le_of_succ_le hkj)]

theorem foldl_pushHistory_eq :
    ∀ (xs acc : List PromptResultM), acc.length ≤ 3 →
      xs.foldl pushHistory acc = (xs.reverse ++ acc).take 3
  | [], acc, hacc => by
    simp [List.take_of_length_le hacc]
  | x :: xs, acc, _ => by
    have h1 : (pushHistory acc x).length ≤ 3 := by
      simp [pushHistory, List.length_take]
    rw [List.foldl_cons, foldl_pushHistory_eq xs (pushHistory acc x) h1]
    simp only [pushHistory, List.reverse_cons, List.append_assoc, List.singleton_append]
    exact take_append_take_of_le _ _ 3 3 (le_refl 3)

theorem getD_append_left {α : Type} (l₁ l₂ : List α) (n : Nat) (d : α)
    (h : n < l₁.length) : (l₁ ++ l₂).getD n d = l₁.getD n d := by
  simp [List.getD_eq_getElem?_getD, List.getElem?_append, h]

theorem getD_take_of_lt {α : Type} (l : List α) (n m : Nat) (d : α)
    (h : m < n) : (l.take n).getD m d = l.getD m d := by
  simp [List.getD_eq_getElem?_getD, List.getElem?_take, h]

theorem getD_eq_get {α : Type} (l : List α) (n : Nat) (d : α)
    (h : n < l.length) : l.getD n d = l.get ⟨n, h⟩ := by
  simp [List.getD_eq_getElem?_getD, List.getElem?_eq_getElem h]

theorem saveHistoryState_eq {α : Type} (s : CanvasState α)
    (h : s.step < s.history.length) :
    saveHistoryState s
      = ⟨s.raster, s.history.take (s.step + 1) ++ [s.raster], s.step + 1⟩ := by
  have hl : (s.history.take (s.step + 1) ++ [s.raster]).length - 1 = s.step + 1 := by
    simp [List.length_take]
    omega
  simp only [saveHistoryState]
  rw [hl]

theorem handleUndo_of_pos {α : Type} (s : CanvasState α) (h : 0 < s.step) :
    handleUndo s = ⟨s.history.getD (s.step - 1) s.raster, s.history, s.step - 1⟩ := by
  unfold handleUndo
  rw [if_pos h]

theorem handleRedo_of_lt {α : Type} (s : CanvasState α)
    (h : s.step < s.history.length - 1) :
    handleRedo s = ⟨s.history.getD (s.step + 1) s.raster, s.history, s.step + 1⟩ := by
  unfold handleRedo
  rw [if_pos h]

theorem handleRedo_of_ge {α : Type} (s : CanvasState α)
    (h : ¬ s.step < s.history.length - 1) :
    handleRedo s = s := by
  unfold handleRedo
  rw [if_neg h]

/-- Exhaustive behavioural description of the retry loop entered at attempt 1
with fuel `MAX_RETRIES = 3`: at least one and at most three attempts; the
observed delays are `2000 * n` for each failed retriable attempt `n`; every
re-attempt follows a failure whose message matches the quota or overload
signals with the attempt count below the budget; a first-attempt failure
classified safety-blocked stops after one attempt with the policy-refusal
message; and whenever no image is produced the stored error is the sanitised
message of a failed attempt. -/
theorem imageGenerationPhase_spec (oracle : Nat → AttemptOutcome) :
    1 ≤ (imageGenerationPhase oracle).attemptsMade ∧
    (imageGenerationPhase oracle).attemptsMade ≤ 3 ∧
    (imageGenerationPhase oracle).delays =
      (List.range ((imageGenerationPhase oracle).attemptsMade - 1)).map
        (fun k => 2000 * (k + 1)) ∧
    (∀ n, 1 ≤ n → n < (imageGenerationPhase oracle).attemptsMade →
      ∃ msg, oracle n = .failure msg ∧ (isQuotaMsg msg || isOverloadedMsg msg) = true ∧
        n < maxRetries) ∧
    (∀ msg, oracle 1 = .failure msg → isQuotaMsg msg = false → isOverloadedMsg msg = false →
      isSafetyMsg msg = true →
      (imageGenerationPhase oracle).attemptsMade = 1 ∧
      (imageGenerationPhase oracle).error = some safetyErrorMessage) ∧
    ((imageGenerationPhase oracle).imageData = none →
      ∃ msg n, 1 ≤ n ∧ n ≤ maxRetries ∧ oracle n = .failure msg ∧
        (imageGenerationPhase oracle).error = some (sanitizeError msg)) := by
  rcases h1 : oracle 1 with d1 | m1
  · -- attempt 1 succeeds
    have hval : imageGenerationPhase oracle = ⟨some d1, none, [], 1⟩ := by
      simp [imageGenerationPhase, runAttempts, h1]
    have hA : (imageGenerationPhase oracle).attemptsMade = 1 := by rw [hval]
    have hD : (imageGenerationPhase oracle).delays = [] := by rw [hval]
    have hI : (imageGenerationPhase oracle).imageData = some d1 := by rw [hval]
    refine ⟨by omega, by omega, by rw [hD, hA]; decide, ?_, ?_, ?_⟩
    · intro n h1n hlt
      rw [hA] at hlt
      omega
    · intro msg hmsg _ _ _
      cases hmsg
    · intro hnone
      rw [hI] at hnone
      cases hnone
  · rcases hb1 : (isQuotaMsg m1 || isOverloadedMsg m1) with _ | _
    · -- attempt 1 fails, not retriable
      have hval : imageGenerationPhase oracle = ⟨none, some (sanitizeError m1), [], 1⟩ := by
        simp [imageGenerationPhase, runAttempts, h1, hb1]
      have hA : (imageGenerationPhase oracle).attemptsMade = 1 := by rw [hval]
      have hD : (imageGenerationPhase oracle).delays = [] := by rw [hval]
      have hE : (imageGenerationPhase oracle).error = some (sanitizeError m1) := by rw [hval]
      refine ⟨by omega, by omega, by rw [hD, hA]; decide, ?_, ?_, ?_⟩
      · intro n h1n hlt
        rw [hA] at hlt
        omega
      · intro msg hmsg hq hov hsf
        injection hmsg with hm
        subst hm
        refine ⟨hA, ?_⟩
        rw [hE]
        simp [sanitizeError, hq, hsf]
      · intro _
        exact ⟨m1, 1, by omega, by norm_num [maxRetries], h1, hE⟩
    · -- attempt 1 fails, retriable
      rcases h2 : oracle 2 with d2 | m2
      · -- attempt 2 succeeds
        have hval : imageGenerationPhase oracle = ⟨some d2, none, [2000], 2⟩ := by
          simp [imageGenerationPhase, runAttempts, h1, hb1, h2, maxRetries]
        have hA : (imageGenerationPhase oracle).attemptsMade = 2 := by rw [hval]
        have hD : (imageGenerationPhase oracle).delays = [2000] := by rw [hval]
        have hI : (imageGenerationPhase oracle).imageData = some d2 := by rw [hval]
        refine ⟨by omega, by omega, by rw [hD, hA]; decide, ?_, ?_, ?_⟩
        · intro n h1n hlt
          rw [hA] at hlt
          have hn : n = 1 := by omega
          subst hn
          exact ⟨m1, h1, hb1, by norm_num [maxRetries]⟩
        · intro msg hmsg hq hov _
          injection hmsg with hm
          subst hm
          rw [hq, hov] at hb1
          cases hb1
        · intro hnone
          rw [hI] at hnone
          cases hnone
      · rcases hb2 : (isQuotaMsg m2 || isOverloadedMsg m2) with _ | _
        · -- attempt 2 fails, not retriable
          have hval : imageGenerationPhase oracle
              = ⟨none, some (sanitizeError m2), [2000], 2⟩ := by
            simp [imageGenerationPhase, runAttempts, h1, hb1, h2, hb2, maxRetries]
          have hA : (imageGenerationPhase oracle).attemptsMade = 2 := by rw [hval]
          have hD : (imageGenerationPhase oracle).delays = [2000] := by rw [hval]
          have hE : (imageGenerationPhase oracle).error = some (sanitizeError m2) := by
            rw [hval]
          refine ⟨by omega, by omega, by rw [hD, hA]; decide, ?_, ?_, ?_⟩
          · intro n h1n hlt
            rw [hA] at hlt
            have hn : n = 1 := by omega
            subst hn
            exact ⟨m1, h1, hb1, by norm_num [maxRetries]⟩
          · intro msg hmsg hq hov _
            injection hmsg with hm
            subst hm
            rw [hq, hov] at hb1
            cases hb1
          · intro _
            exact ⟨m2, 2, by omega, by norm_num [maxRetries], h2, hE⟩
        · -- attempts 1 and 2 fail retriably
          rcases h3 : oracle 3 with d3 | m3
          · -- attempt 3 succeeds
            have hval : imageGenerationPhase oracle = ⟨some d3, none, [2000, 4000], 3⟩ := by
              simp [imageGenerationPhase, runAttempts, h1, hb1, h2, hb2, h3, maxRetries]
            have hA : (imageGenerationPhase oracle).attemptsMade = 3 := by rw [hval]
            have hD : (imageGenerationPhase oracle).delays = [2000, 4000] := by rw [hval]
            have hI : (imageGenerationPhase oracle).imageData = some d3 := by rw [hval]
            refine ⟨by omega, by omega, by rw [hD, hA]; decide, ?_, ?_, ?_⟩
            · intro n h1n hlt
              rw [hA] at hlt
              interval_cases n
              · exact ⟨m1, h1, hb1, by norm_num [maxRetries]⟩
              · exact ⟨m2, h2, hb2, by norm_num [maxRetries]⟩
            · intro msg hmsg hq hov _
              injection hmsg with hm
              subst hm
              rw [hq, hov] at hb1
              cases hb1
            · intro hnone
              rw [hI] at hnone
              cases hnone
          · -- attempt 3 fails: budget exhausted
            have hval : imageGenerationPhase oracle
                = ⟨none, some (sanitizeError m3), [2000, 4000], 3⟩ := by
              simp [imageGenerationPhase, runAttempts, h1, hb1, h2, hb2, h3, maxRetries]
            have hA : (imageGenerationPhase oracle).attemptsMade = 3 := by rw [hval]
            have hD : (imageGenerationPhase oracle).delays = [2000, 4000] := by rw [hval]
            have hE : (imageGenerationPhase oracle).error = some (sanitizeError m3) := by
              rw [hval]
            refine ⟨by omega, by omega, by rw [hD, hA]; decide, ?_, ?_, ?_⟩
            · intro n h1n hlt
              rw [hA] at hlt
              interval_cases n
              · exact ⟨m1, h1, hb1, by norm_num [maxRetries]⟩
              · exact ⟨m2, h2, hb2, by norm_num [maxRetries]⟩
            · intro msg hmsg hq hov _
              injection hmsg with hm
              subst hm
              rw [hq, hov] at hb1
              cases hb1
            · intro _
              exact ⟨m3, 3, by omega, by norm_num [maxRetries], h3, hE⟩

/-! ### Claim theorems -/

/-- C1: the claim that the exported mask is strictly binary (any channel above
the threshold means pure white, otherwise pure black) FAILS on the code: the
export loop tests only the red channel, and the brush color
`rgba(6, 182, 212, 0.7)` composites to red 4 ≤ 20, so a painted pixel — whose
green (127) and blue (147) channels are far above the threshold — is exported
neither pure white nor pure black. -/
theorem exportMask_not_binary :
    exportMask [brushPixel] = [⟨4, 127, 147, 255⟩] ∧
    maskThreshold < (compositeOverBlack brushPixel).g ∧
    maskThreshold < (compositeOverBlack brushPixel).b ∧
    (⟨4, 127, 147, 255⟩ : RGBA) ≠ pureWhite ∧
    (⟨4, 127, 147, 255⟩ : RGBA) ≠ pureBlack := by
  decide

/-- C4: when the text-analysis call fails, `generateArchitecturalPrompt`
aborts by re-throwing a surfaced `Analysis failed` error before any
image-synthesis work: zero image attempts, no backoff delays, no image
instruction built, and no partial `PromptResult` produced. -/
theorem generate_text_failure_aborts (msg : String) (setup : Except String Unit)
    (oracle : Nat → AttemptOutcome) (masterStylePrompt : Option String) :
    (generateArchitecturalPrompt (.err msg) setup oracle masterStylePrompt).result
        = .error (analysisErrorMessage msg) ∧
    (generateArchitecturalPrompt (.err msg) setup oracle masterStylePrompt).imageAttempts = 0 ∧
    (generateArchitecturalPrompt (.err msg) setup oracle masterStylePrompt).delays = [] ∧
    (generateArchitecturalPrompt (.err msg) setup oracle masterStylePrompt).instruction = none :=
  ⟨rfl, rfl, rfl, rfl⟩

/-- C6: the result history is the reverse-chronological prefix of the inserted
results: it never exceeds 3 entries, every new result is prepended
(most-recent-first), and inserting into a full history evicts the oldest
(last) entry. -/
theorem resultHistory_bounded :
    (∀ xs : List PromptResultM, xs.foldl pushHistory [] = xs.reverse.take 3) ∧
    (∀ xs : List PromptResultM, (xs.foldl pushHistory []).length ≤ 3) ∧
    (∀ (prev : List PromptResultM) (x : PromptResultM), (pushHistory prev x).head? = some x) ∧
    (∀ (prev : List PromptResultM) (x : PromptResultM), prev.length = 3 →
      pushHistory prev x = x :: prev.dropLast) := by
  have hmain : ∀ xs : List PromptResultM, xs.foldl pushHistory [] = xs.reverse.take 3 := by
    intro xs
    simpa using foldl_pushHistory_eq xs [] (by simp)
  refine ⟨hmain, ?_, ?_, ?_⟩
  · intro xs
    rw [hmain]
    simp [List.length_take]
  · intro prev x
    simp [pushHistory]
  · intro prev x hlen
    simp [pushHistory, List.dropLast_eq_take, hlen]

/-- C6 witness: inserting a fourth result into a full history prepends it and
evicts the oldest entry. -/
theorem resultHistory_bounded_witness :
    pushHistory [⟨"a", none, none⟩, ⟨"b", none, none⟩, ⟨"c", none, none⟩] ⟨"d", none, none⟩
      = ⟨"d", none, none⟩ ::
        ([⟨"a", none, none⟩, ⟨"b", none, none⟩, ⟨"c", none, none⟩] : List PromptResultM).dropLast :=
  resultHistory_bounded.2.2.2 _ _ rfl

/-- C7: undo immediately after a commit restores the raster to the snapshot
that was active before the commit, and redo immediately after an undo restores
the snapshot that was active before the undo; snapshots are stored and
restored as values, so the contents are pixel-identical. -/
theorem undo_redo_pixel_identical {α : Type} (s : CanvasState α)
    (hstep : s.step < s.history.length) :
    (handleUndo (saveHistoryState s)).raster = s.history.get ⟨s.step, hstep⟩ ∧
    (0 < s.step → (handleRedo (handleUndo s)).raster = s.history.get ⟨s.step, hstep⟩) := by
  constructor
  · rw [saveHistoryState_eq s hstep, handleUndo_of_pos _ (Nat.succ_pos _)]
    show (s.history.take (s.step + 1) ++ [s.raster]).getD (s.step + 1 - 1) s.raster = _
    have hidx : s.step + 1 - 1 = s.step := rfl
    rw [hidx, getD_append_left _ _ _ _ (by simp [List.length_take]; omega),
      getD_take_of_lt _ _ _ _ (Nat.lt_succ_self _), getD_eq_get _ _ _ hstep]
  · intro hpos
    rw [handleUndo_of_pos s hpos,
      handleRedo_of_lt _ (show s.step - 1 < s.history.length - 1 by omega)]
    show s.history.getD (s.step - 1 + 1) _ = _
    have hidx : s.step - 1 + 1 = s.step := by omega
    rw [hidx, getD_eq_get _ _ _ hstep]

/-- C7 witness: on a concrete two-snapshot history, undo after commit and redo
after undo both restore the snapshot at the pre-operation cursor. -/
theorem undo_redo_pixel_identical_witness :
    (handleUndo (saveHistoryState (⟨[9], [[0], [9]], 1⟩ : CanvasState (List Nat)))).raster = [9] ∧
    (handleRedo (handleUndo (⟨[9], [[0], [9]], 1⟩ : CanvasState (List Nat)))).raster = [9] := by
  have h := undo_redo_pixel_identical (⟨[9], [[0], [9]], 1⟩ : CanvasState (List Nat)) (by decide)
  exact ⟨h.1, h.2 (by decide)⟩

/-- C8: committing a new stroke (or a clear) while the cursor is not at the
tip truncates the history at the cursor and appends the new snapshot, so every
forward (redo) snapshot is discarded, the cursor points at the newly appended
tip, and redo is a no-op afterwards. -/
theorem commit_truncates_redo {α : Type} (s : CanvasState α) (f : α → α)
    (hcursor : s.step + 1 < s.history.length) :
    (saveHistoryState (strokeRaster f s)).history
        = s.history.take (s.step + 1) ++ [f s.raster] ∧
    (saveHistoryState (strokeRaster f s)).step = s.step + 1 ∧
    (saveHistoryState (strokeRaster f s)).step
        = (saveHistoryState (strokeRaster f s)).history.length - 1 ∧
    handleRedo (saveHistoryState (strokeRaster f s)) = saveHistoryState (strokeRaster f s) := by
  have hlen : (s.history.take (s.step + 1) ++ [f s.raster]).length = s.step + 2 := by
    simp [List.length_take]
    omega
  refine ⟨rfl, ?_, ?_, ?_⟩
  · show (s.history.take (s.step + 1) ++ [f s.raster]).length - 1 = s.step + 1
    omega
  · rfl
  · rw [handleRedo_of_ge _ (show ¬ (s.history.take (s.step + 1) ++ [f s.raster]).length - 1
      < (s.history.take (s.step + 1) ++ [f s.raster]).length - 1 from lt_irrefl _)]

/-- C8 witness: committing a stroke with the cursor at index 0 of a
three-snapshot history discards both forward snapshots and leaves redo a
no-op. -/
theorem commit_truncates_redo_witness :
    (saveHistoryState (strokeRaster (fun r => 7 :: r)
        (⟨[1], [[0], [1], [2]], 0⟩ : CanvasState (List Nat)))).history = [[0], [7, 1]] ∧
    handleRedo (saveHistoryState (strokeRaster (fun r => 7 :: r)
        (⟨[1], [[0], [1], [2]], 0⟩ : CanvasState (List Nat))))
      = saveHistoryState (strokeRaster (fun r => 7 :: r)
        (⟨[1], [[0], [1], [2]], 0⟩ : CanvasState (List Nat))) := by
  have h := commit_truncates_redo (⟨[1], [[0], [1], [2]], 0⟩ : CanvasState (List Nat))
    (fun r => 7 :: r) (by decide)
  exact ⟨h.1.trans rfl, h.2.2.2⟩

/-- C9: the Coordinate Mapper computes
`raster_x = (screen_x - box.left) * (raster.width / box.width)` (and
symmetrically for y), and composing it with the inverse mapping returns the
original display point whenever the box and raster dimensions are positive. -/
theorem mapToRaster_roundtrip (box : DisplayBox) (rasterW rasterH clientX clientY : ℚ)
    (hbw : 0 < box.width) (hbh : 0 < box.height)
    (hrw : 0 < rasterW) (hrh : 0 < rasterH) :
    mapToRaster box rasterW rasterH clientX clientY =
      ((clientX - box.left) * (rasterW / box.width),
       (clientY - box.top) * (rasterH / box.height)) ∧
    mapToScreen box rasterW rasterH (mapToRaster box rasterW rasterH clientX clientY) =
      (clientX, clientY) := by
  refine ⟨rfl, ?_⟩
  have h1 : box.width ≠ 0 := ne_of_gt hbw
  have h2 : box.height ≠ 0 := ne_of_gt hbh
  have h3 : rasterW ≠ 0 := ne_of_gt hrw
  have h4 : rasterH ≠ 0 := ne_of_gt hrh
  unfold mapToRaster mapToScreen
  simp only [Prod.mk.injEq]
  constructor <;> field_simp

/-- C9 witness: a concrete round trip through the coordinate mapper at scale
factor 1/5 (box 2 x 3 over a 10 x 9 raster). -/
theorem mapToRaster_roundtrip_witness :
    mapToScreen ⟨5, 7, 2, 3⟩ 10 9 (mapToRaster ⟨5, 7, 2, 3⟩ 10 9 6 8) = (6, 8) :=
  (mapToRaster_roundtrip ⟨5, 7, 2, 3⟩ 10 9 6 8 (by norm_num) (by norm_num)
    (by norm_num) (by norm_num)).2

/-- C3: the Backoff Retrier re-attempts only failures matching the quota or
overload signals and only while the attempt count is below `MAX_RETRIES = 3`,
waiting `2000 * n` ms after failed attempt `n` (2s then 4s); at most three
attempts ever occur, and a first-attempt failure classified safety-blocked
(policy signals present, no quota or overload signals) yields exactly one
attempt with the policy-refusal error message. -/
theorem backoff_retrier_policy (oracle : Nat → AttemptOutcome) :
    1 ≤ (imageGenerationPhase oracle).attemptsMade ∧
    (imageGenerationPhase oracle).attemptsMade ≤ 3 ∧
    (imageGenerationPhase oracle).delays =
      (List.range ((imageGenerationPhase oracle).attemptsMade - 1)).map
        (fun k => 2000 * (k + 1)) ∧
    (∀ n, 1 ≤ n → n < (imageGenerationPhase oracle).attemptsMade →
      ∃ msg, oracle n = .failure msg ∧ (isQuotaMsg msg || isOverloadedMsg msg) = true ∧
        n < maxRetries) ∧
    (∀ msg, oracle 1 = .failure msg → isQuotaMsg msg = false → isOverloadedMsg msg = false →
      isSafetyMsg msg = true →
      (imageGenerationPhase oracle).attemptsMade = 1 ∧
      (imageGenerationPhase oracle).error = some safetyErrorMessage) :=
  ⟨(imageGenerationPhase_spec oracle).1, (imageGenerationPhase_spec oracle).2.1,
   (imageGenerationPhase_spec oracle).2.2.1, (imageGenerationPhase_spec oracle).2.2.2.1,
   (imageGenerationPhase_spec oracle).2.2.2.2.1⟩

/-- C3 witness: a safety-blocked failure on attempt 1 stops after a single
attempt with the policy-refusal message. -/
theorem backoff_retrier_policy_witness :
    (imageGenerationPhase
      (fun _ => .failure "Image was blocked for Safety reasons")).attemptsMade = 1 ∧
    (imageGenerationPhase
      (fun _ => .failure "Image was blocked for Safety reasons")).error
        = some safetyErrorMessage :=
  (backoff_retrier_policy (fun _ => .failure "Image was blocked for Safety reasons")).2.2.2.2
    "Image was blocked for Safety reasons" rfl (by decide) (by decide) (by decide)

/-- C2: when text analysis succeeds, `generateArchitecturalPrompt` never
throws, whatever the image-synthesis outcomes: it always returns a
`PromptResult` whose prompt is the refined text, and when image synthesis
produces no image after the retries, the result has no image and its error is
the sanitised (classification-specific) message of a failed attempt. -/
theorem generate_partial_success (t : String) (setup : Except String Unit)
    (oracle : Nat → AttemptOutcome) (masterStylePrompt : Option String) :
    (∃ p, (generateArchitecturalPrompt (.ok t) setup oracle masterStylePrompt).result
        = .ok p ∧ p.prompt = refinedPrompt t) ∧
    ((imageGenerationPhase oracle).imageData = none →
      ∃ p msg n, (generateArchitecturalPrompt (.ok t) (.ok ()) oracle masterStylePrompt).result
          = .ok p ∧
        p.prompt = refinedPrompt t ∧ p.imageData = none ∧
        p.error = some (sanitizeError msg) ∧
        1 ≤ n ∧ n ≤ maxRetries ∧ oracle n = .failure msg) := by
  constructor
  · rcases setup with m | u
    · exact ⟨⟨refinedPrompt t, none, some ("Failed to prepare image data: " ++ m)⟩, rfl, rfl⟩
    · exact ⟨⟨refinedPrompt t, (imageGenerationPhase oracle).imageData,
        (imageGenerationPhase oracle).error⟩, rfl, rfl⟩
  · intro hnone
    obtain ⟨msg, n, hn1, hn3, hor, herr⟩ := (imageGenerationPhase_spec oracle).2.2.2.2.2 hnone
    exact ⟨⟨refinedPrompt t, (imageGenerationPhase oracle).imageData,
      (imageGenerationPhase oracle).error⟩, msg, n, rfl, rfl, hnone, herr, hn1, hn3, hor⟩

/-- C2 witness: with the analysis text `"refined text"` and every
image-synthesis attempt failing with a quota message, the pipeline still
returns a result carrying the refined text, no image, and a sanitised error. -/
theorem generate_partial_success_witness :
    ∃ p msg n,
      (generateArchitecturalPrompt (.ok "refined text") (.ok ())
          (fun _ => .failure "quota exceeded today") none).result = .ok p ∧
      p.prompt = refinedPrompt "refined text" ∧ p.imageData = none ∧
      p.error = some (sanitizeError msg) ∧
      1 ≤ n ∧ n ≤ maxRetries ∧
      (fun _ => AttemptOutcome.failure "quota exceeded today") n = .failure msg :=
  (generate_partial_success "refined text" (.ok ())
    (fun _ => .failure "quota exceeded today") none).2 (by decide)

/-- C10: when text analysis returns successfully with empty text, the pipeline
does not abort: the placeholder `"Prompt generation failed."` becomes the
refined prompt of the returned result, and it is embedded (through the
800-character truncation) in the image-synthesis instruction. -/
theorem generate_empty_text_placeholder (setup : Except String Unit)
    (oracle : Nat → AttemptOutcome) (masterStylePrompt : Option String) :
    (∃ p, (generateArchitecturalPrompt (.ok "") setup oracle masterStylePrompt).result
        = .ok p ∧ p.prompt = promptPlaceholder) ∧
    (generateArchitecturalPrompt (.ok "") (.ok ()) oracle masterStylePrompt).instruction
      = some (imageGenPrompt masterStylePrompt promptPlaceholder) ∧
    ∃ pre post, pre ++ promptPlaceholder.toList ++ post
      = (imageGenPrompt masterStylePrompt promptPlaceholder).toList := by
  refine ⟨?_, rfl, ?_⟩
  · rcases setup with m | u
    · exact ⟨⟨promptPlaceholder, none, some ("Failed to prepare image data: " ++ m)⟩, rfl, rfl⟩
    · exact ⟨⟨promptPlaceholder, (imageGenerationPhase oracle).imageData,
        (imageGenerationPhase oracle).error⟩, rfl, rfl⟩
  · have hT : sliceTo800 promptPlaceholder = promptPlaceholder := by decide
    rcases masterStylePrompt with _ | sp
    · refine ⟨("\n        Create a photorealistic architectural rendering.\n        "
          ++ "Style: Photorealistic, 8k, Unreal Engine 5."
          ++ "\n        DESCRIPTION: ").toList,
        ("\n        CONSTRAINTS: Use sketch geometry strictly. High fidelity.\n      ").toList,
        ?_⟩
      simp only [imageGenPrompt, hT, String.toList, String.data_append, List.append_assoc]
    · refine ⟨("\n        Create a photorealistic architectural rendering.\n        "
          ++ ("STYLE: " ++ sp)
          ++ "\n        DESCRIPTION: ").toList,
        ("\n        CONSTRAINTS: Use sketch geometry strictly. High fidelity.\n      ").toList,
        ?_⟩
      simp only [imageGenPrompt, hT, String.toList, String.data_append, List.append_assoc]

/-- `closerTarget` selects the current entry exactly when it is strictly
closer. -/
theorem closerTarget_of_lt {ratio : ℚ} {p q : String × ℚ}
    (h : |q.2 - ratio| < |p.2 - ratio|) : closerTarget ratio p q = q := by
  unfold closerTarget
  rw [if_pos h]

/-- `closerTarget` keeps the accumulator on ties and when the current entry is
farther. -/
theorem closerTarget_of_ge {ratio : ℚ} {p q : String × ℚ}
    (h : ¬ |q.2 - ratio| < |p.2 - ratio|) : closerTarget ratio p q = p := by
  unfold closerTarget
  rw [if_neg h]

/-- Absolute values of rationals compare like their squares (strict case). -/
theorem abs_lt_abs_of_sq {a b : ℚ} (h : a ^ 2 < b ^ 2) : |a| < |b| := by
  have h1 : |a| ^ 2 < |b| ^ 2 := by rwa [sq_abs, sq_abs]
  exact lt_of_pow_lt_pow_left₀ 2 (abs_nonneg b) h1

/-- Absolute values of rationals compare like their squares (negated case). -/
theorem abs_not_lt_of_sq {a b : ℚ} (h : b ^ 2 ≤ a ^ 2) : ¬ |a| < |b| := by
  have h1 : |b| ^ 2 ≤ |a| ^ 2 := by rwa [sq_abs, sq_abs]
  exact not_lt.mpr (le_of_pow_le_pow_left₀ two_ne_zero (abs_nonneg a) h1)

theorem closerTarget_le_left (ratio : ℚ) (p q : String × ℚ) :
    |(closerTarget ratio p q).2 - ratio| ≤ |p.2 - ratio| := by
  unfold closerTarget
  split_ifs with h
  · exact le_of_lt h
  · exact le_refl _

theorem closerTarget_le_right (ratio : ℚ) (p q : String × ℚ) :
    |(closerTarget ratio p q).2 - ratio| ≤ |q.2 - ratio| := by
  unfold closerTarget
  split_ifs with h
  · exact le_refl _
  · exact le_of_not_lt h

theorem closerTarget_eq_or (ratio : ℚ) (p q : String × ℚ) :
    closerTarget ratio p q = p ∨ closerTarget ratio p q = q := by
  unfold closerTarget
  split_ifs
  · exact Or.inr rfl
  · exact Or.inl rfl

/-- The fold never moves farther from the ratio than its accumulator. -/
theorem foldl_closer_le_seed (ratio : ℚ) :
    ∀ (l : List (String × ℚ)) (p : String × ℚ),
      |(l.foldl (closerTarget ratio) p).2 - ratio| ≤ |p.2 - ratio|
  | [], _ => le_refl _
  | q :: l, p =>
    le_trans (foldl_closer_le_seed ratio l (closerTarget ratio p q))
      (closerTarget_le_left ratio p q)

/-- The fold result is at least as close to the ratio as every scanned entry. -/
theorem foldl_closer_min (ratio : ℚ) :
    ∀ (l : List (String × ℚ)) (p q : String × ℚ), q ∈ l →
      |(l.foldl (closerTarget ratio) p).2 - ratio| ≤ |q.2 - ratio|
  | [], _, q, hq => absurd hq (List.not_mem_nil q)
  | a :: l, p, q, hq => by
    rw [List.foldl_cons]
    rcases List.mem_cons.mp hq with h | h
    · subst h
      exact le_trans (foldl_closer_le_seed ratio l (closerTarget ratio p q))
        (closerTarget_le_right ratio p q)
    · exact foldl_closer_min ratio l (closerTarget ratio p a) q h

/-- The fold result is the accumulator or one of the scanned entries. -/
theorem foldl_closer_mem (ratio : ℚ) :
    ∀ (l : List (String × ℚ)) (p : String × ℚ),
      l.foldl (closerTarget ratio) p = p ∨ l.foldl (closerTarget ratio) p ∈ l
  | [], _ => Or.inl rfl
  | a :: l, p => by
    rw [List.foldl_cons]
    rcases foldl_closer_mem ratio l (closerTarget ratio p a) with h | h
    · rcases closerTarget_eq_or ratio p a with h2 | h2
      · exact Or.inl (h.trans h2)
      · rw [h, h2]
        exact Or.inr (List.mem_cons_self a l)
    · exact Or.inr (List.mem_cons_of_mem a h)

/-- The fold result either is the accumulator or strictly beats it: ties can
never displace an earlier-listed accumulator. -/
theorem foldl_closer_seed_or_lt (ratio : ℚ) :
    ∀ (l : List (String × ℚ)) (p : String × ℚ),
      l.foldl (closerTarget ratio) p = p ∨
        |(l.foldl (closerTarget ratio) p).2 - ratio| < |p.2 - ratio|
  | [], _ => Or.inl rfl
  | a :: l, p => by
    rw [List.foldl_cons]
    by_cases hc : |a.2 - ratio| < |p.2 - ratio|
    · have he : closerTarget ratio p a = a := closerTarget_of_lt hc
      rw [he]
      rcases foldl_closer_seed_or_lt ratio l a with h | h
      · rw [h]
        exact Or.inr hc
      · exact Or.inr (lt_trans h hc)
    · have he : closerTarget ratio p a = p := closerTarget_of_ge hc
      rw [he]
      exact foldl_closer_seed_or_lt ratio l p

/-- C5 counterexample: the claim that the selector returns the member whose
ratio VALUE is nearest to width/height fails at 5833 x 5000: the code returns
"4:3", yet "1:1" (ratio value 1) is strictly nearer to 5833/5000 than "4:3"
(ratio value 4/3), because the code compares against the truncated constant
1.333 instead of 4/3. -/
theorem getBestAspectRatio_counterexample :
    getBestAspectRatio (some 5833) (some 5000) = "4:3" ∧
    |(1 : ℚ) - 5833 / 5000| < |(4 : ℚ) / 3 - 5833 / 5000| := by
  constructor
  · have e : getBestAspectRatio (some 5833) (some 5000)
        = (aspectRest.foldl (closerTarget ((5833 : ℚ) / 5000)) aspectSeed).1 := rfl
    rw [e]
    show (([("3:4", (3 : ℚ) / 4), ("4:3", 1333 / 1000), ("9:16", 9 / 16),
      ("16:9", 1777 / 1000)]).foldl (closerTarget ((5833 : ℚ) / 5000)) ("1:1", 1)).1 = "4:3"
    rw [List.foldl_cons, closerTarget_of_ge (abs_not_lt_of_sq (by norm_num)),
      List.foldl_cons, closerTarget_of_lt (abs_lt_abs_of_sq (by norm_num)),
      List.foldl_cons, closerTarget_of_ge (abs_not_lt_of_sq (by norm_num)),
      List.foldl_cons, closerTarget_of_ge (abs_not_lt_of_sq (by norm_num))]
    rfl
  · exact abs_lt_abs_of_sq (by norm_num)

/-- C5 amended: `getBestAspectRatio` returns the table member whose TABULATED
ratio value (1, 3/4, 1.333, 9/16, 1.777 - the code's truncated constants for
4:3 and 16:9) is nearest to width/height by absolute difference, ties broken
in favor of the first-listed member (the returned member beats every
earlier-listed entry strictly); it returns "1:1" when a dimension is missing
or zero; and 1000x1000 gives "1:1", 1600x900 gives "16:9", 900x1600 gives
"9:16". -/
theorem getBestAspectRatio_amended :
    (∀ w h : ℚ, 0 < w → 0 < h →
      ∃ v pre post,
        aspectTargets = pre ++ (getBestAspectRatio (some w) (some h), v) :: post ∧
        (∀ q ∈ aspectTargets, |v - w / h| ≤ |q.2 - w / h|) ∧
        (∀ q ∈ pre, |v - w / h| < |q.2 - w / h|)) ∧
    getBestAspectRatio none none = "1:1" ∧
    (∀ w, getBestAspectRatio (some w) none = "1:1") ∧
    (∀ h, getBestAspectRatio none (some h) = "1:1") ∧
    (∀ h, getBestAspectRatio (some 0) (some h) = "1:1") ∧
    (∀ w, getBestAspectRatio (some w) (some 0) = "1:1") ∧
    getBestAspectRatio (some 1000) (some 1000) = "1:1" ∧
    getBestAspectRatio (some 1600) (some 900) = "16:9" ∧
    getBestAspectRatio (some 900) (some 1600) = "9:16" := by
  refine ⟨?_, rfl, fun w => rfl, fun h => rfl, ?_, ?_, ?_, ?_, ?_⟩
  · intro w h hw hh
    have hcond : ¬(w = 0 ∨ h = 0) := by
      push_neg
      exact ⟨ne_of_gt hw, ne_of_gt hh⟩
    have hfold : getBestAspectRatio (some w) (some h)
        = if w = 0 ∨ h = 0 then "1:1"
          else (aspectRest.foldl (closerTarget (w / h)) aspectSeed).1 := rfl
    rw [hfold, if_neg hcond]
    rcases foldl_closer_mem (w / h) aspectRest aspectSeed with hm | hm
    · refine ⟨aspectSeed.2, [], aspectRest, ?_, ?_, ?_⟩
      · rw [hm]
        rfl
      · intro q hq
        have hq0 : q ∈ aspectSeed :: aspectRest := hq
        rcases List.mem_cons.mp hq0 with rfl | hq1
        · exact le_refl _
        · have hmin := foldl_closer_min (w / h) aspectRest aspectSeed q hq1
          rw [hm] at hmin
          exact hmin
      · intro q hq
        exact absurd hq (List.not_mem_nil q)
    · obtain ⟨pre1, post1, hsplit⟩ := List.append_of_mem hm
      have hrest_nodup : aspectRest.Nodup := by decide
      have hseed_not : aspectSeed ∉ aspectRest := by decide
      have hnotpre : aspectRest.foldl (closerTarget (w / h)) aspectSeed ∉ pre1 := by
        intro hmem1
        have hnd := hsplit ▸ hrest_nodup
        exact (List.nodup_append.mp hnd).2.2 hmem1 (List.mem_cons_self _ _)
      have hneseed : aspectRest.foldl (closerTarget (w / h)) aspectSeed ≠ aspectSeed := by
        intro he
        exact hseed_not (he ▸ hm)
      have hF2 : aspectRest.foldl (closerTarget (w / h)) aspectSeed
          = post1.foldl (closerTarget (w / h))
              (closerTarget (w / h) (pre1.foldl (closerTarget (w / h)) aspectSeed)
                (aspectRest.foldl (closerTarget (w / h)) aspectSeed)) := by
        conv_lhs => rw [hsplit]
        rw [List.foldl_append, List.foldl_cons]
      rcases foldl_closer_seed_or_lt (w / h) post1
          (closerTarget (w / h) (pre1.foldl (closerTarget (w / h)) aspectSeed)
            (aspectRest.foldl (closerTarget (w / h)) aspectSeed)) with hcase | hcase
      · have hFb1 : aspectRest.foldl (closerTarget (w / h)) aspectSeed
            = closerTarget (w / h) (pre1.foldl (closerTarget (w / h)) aspectSeed)
                (aspectRest.foldl (closerTarget (w / h)) aspectSeed) := hF2.trans hcase
        by_cases hc : |(aspectRest.foldl (closerTarget (w / h)) aspectSeed).2 - w / h|
            < |(pre1.foldl (closerTarget (w / h)) aspectSeed).2 - w / h|
        · refine ⟨(aspectRest.foldl (closerTarget (w / h)) aspectSeed).2,
            aspectSeed :: pre1, post1, ?_, ?_, ?_⟩
          · show aspectSeed :: aspectRest
                = (aspectSeed :: pre1)
                  ++ ((aspectRest.foldl (closerTarget (w / h)) aspectSeed).1,
                      (aspectRest.foldl (closerTarget (w / h)) aspectSeed).2) :: post1
            conv_lhs => rw [hsplit]
            rfl
          · intro q hq
            have hq0 : q ∈ aspectSeed :: aspectRest := hq
            rcases List.mem_cons.mp hq0 with rfl | hq1
            · exact le_of_lt
                (lt_of_lt_of_le hc (foldl_closer_le_seed (w / h) pre1 aspectSeed))
            · rw [hsplit] at hq1
              rcases List.mem_append.mp hq1 with hpre | hrest
              · exact le_of_lt
                  (lt_of_lt_of_le hc (foldl_closer_min (w / h) pre1 aspectSeed q hpre))
              · rcases List.mem_cons.mp hrest with rfl | hpost
                · exact le_refl _
                · have hmin := foldl_closer_min (w / h) post1
                    (closerTarget (w / h) (pre1.foldl (closerTarget (w / h)) aspectSeed)
                      (aspectRest.foldl (closerTarget (w / h)) aspectSeed)) q hpost
                  rw [← hF2] at hmin
                  exact hmin
          · intro q hq
            rcases List.mem_cons.mp hq with rfl | hq1
            · exact lt_of_lt_of_le hc (foldl_closer_le_seed (w / h) pre1 aspectSeed)
            · exact lt_of_lt_of_le hc (foldl_closer_min (w / h) pre1 aspectSeed q hq1)
        · exfalso
          have hkeep : closerTarget (w / h) (pre1.foldl (closerTarget (w / h)) aspectSeed)
              (aspectRest.foldl (closerTarget (w / h)) aspectSeed)
              = pre1.foldl (closerTarget (w / h)) aspectSeed := closerTarget_of_ge hc
          have hFb0 : aspectRest.foldl (closerTarget (w / h)) aspectSeed
              = pre1.foldl (closerTarget (w / h)) aspectSeed := hFb1.trans hkeep
          rcases foldl_closer_mem (w / h) pre1 aspectSeed with h0 | h0
          · exact hneseed (hFb0.trans h0)
          · apply hnotpre
            rw [hFb0]
            exact h0
      · exfalso
        have hle := closerTarget_le_right (w / h)
          (pre1.foldl (closerTarget (w / h)) aspectSeed)
          (aspectRest.foldl (closerTarget (w / h)) aspectSeed)
        rw [← hF2] at hcase
        exact absurd hcase (not_lt.mpr hle)
  · intro h
    have e : getBestAspectRatio (some 0) (some h)
        = if (0 : ℚ) = 0 ∨ h = 0 then "1:1"
          else (aspectRest.foldl (closerTarget (0 / h)) aspectSeed).1 := rfl
    rw [e, if_pos (Or.inl rfl)]
  · intro w
    have e : getBestAspectRatio (some w) (some 0)
        = if w = 0 ∨ (0 : ℚ) = 0 then "1:1"
          else (aspectRest.foldl (closerTarget (w / 0)) aspectSeed).1 := rfl
    rw [e, if_pos (Or.inr rfl)]
  · have e : getBestAspectRatio (some 1000) (some 1000)
        = (aspectRest.foldl (closerTarget ((1000 : ℚ) / 1000)) aspectSeed).1 := rfl
    rw [e]
    show (([("3:4", (3 : ℚ) / 4), ("4:3", 1333 / 1000), ("9:16", 9 / 16),
      ("16:9", 1777 / 1000)]).foldl (closerTarget ((1000 : ℚ) / 1000)) ("1:1", 1)).1 = "1:1"
    rw [List.foldl_cons, closerTarget_of_ge (abs_not_lt_of_sq (by norm_num)),
      List.foldl_cons, closerTarget_of_ge (abs_not_lt_of_sq (by norm_num)),
      List.foldl_cons, closerTarget_of_ge (abs_not_lt_of_sq (by norm_num)),
      List.foldl_cons, closerTarget_of_ge (abs_not_lt_of_sq (by norm_num))]
    rfl
  · have e : getBestAspectRatio (some 1600) (some 900)
        = (aspectRest.foldl (closerTarget ((1600 : ℚ) / 900)) aspectSeed).1 := rfl
    rw [e]
    show (([("3:4", (3 : ℚ) / 4), ("4:3", 1333 / 1000), ("9:16", 9 / 16),
      ("16:9", 1777 / 1000)]).foldl (closerTarget ((1600 : ℚ) / 900)) ("1:1", 1)).1 = "16:9"
    rw [List.foldl_cons, closerTarget_of_ge (abs_not_lt_of_sq (by norm_num)),
      List.foldl_cons, closerTarget_of_lt (abs_lt_abs_of_sq (by norm_num)),
      List.foldl_cons, closerTarget_of_ge (abs_not_lt_of_sq (by norm_num)),
      List.foldl_cons, closerTarget_of_lt (abs_lt_abs_of_sq (by norm_num))]
    rfl
  · have e : getBestAspectRatio (some 900) (some 1600)
        = (aspectRest.foldl (closerTarget ((900 : ℚ) / 1600)) aspectSeed).1 := rfl
    rw [e]
    show (([("3:4", (3 : ℚ) / 4), ("4:3", 1333 / 1000), ("9:16", 9 / 16),
      ("16:9", 1777 / 1000)]).foldl (closerTarget ((900 : ℚ) / 1600)) ("1:1", 1)).1 = "9:16"
    rw [List.foldl_cons, closerTarget_of_lt (abs_lt_abs_of_sq (by norm_num)),
      List.foldl_cons, closerTarget_of_ge (abs_not_lt_of_sq (by norm_num)),
      List.foldl_cons, closerTarget_of_lt (abs_lt_abs_of_sq (by norm_num)),
      List.foldl_cons, closerTarget_of_ge (abs_not_lt_of_sq (by norm_num))]
    rfl

/-- C5 witness: at 1600 x 900 the selector's choice sits in the table, beats
every entry by absolute difference to the tabulated values, and strictly
beats every earlier-listed entry. -/
theorem getBestAspectRatio_amended_witness :
    ∃ v pre post,
      aspectTargets = pre ++ (getBestAspectRatio (some 1600) (some 900), v) :: post ∧
      (∀ q ∈ aspectTargets, |v - 1600 / 900| ≤ |q.2 - 1600 / 900|) ∧
      (∀ q ∈ pre, |v - 1600 / 900| < |q.2 - 1600 / 900|) :=
  getBestAspectRatio_amended.1 1600 900 (by norm_num) (by norm_num)

end EdenBoost

